import Mathlib

set_option maxRecDepth 100000

/-!
Verification model of the blockchain settlement layer found in
src/src/blockchain/blockchain.go and src/src/blockchain/ethereum.go.

The Go code carries monetary amounts in float64 and converts them to ledger
subunits with expressions like int64(amount * 100000000). The embedding keeps
every such value as the exact rational the IEEE-754 binary64 double holds, and
routes every arithmetic operation through an executable round-to-nearest-even
model (fl below), so drift of the real code is reproduced exactly. External
library calls (base58 address decoding, secp256k1 key derivation, node RPC
responses) are abstracted as explicit parameters of the model environments;
everything the cited Go functions themselves compute is embedded directly.
-/

namespace PayChain

attribute [local semireducible] Rat.mul Rat.inv Rat.add Rat.sub Nat.gcd

instance {ε α : Type} [DecidableEq ε] [DecidableEq α] :
    DecidableEq (Except ε α) := fun x y =>
  match x, y with
  | .ok a, .ok b =>
    if h : a = b then isTrue (congrArg Except.ok h)
    else isFalse fun he => h (Except.ok.inj he)
  | .error a, .error b =>
    if h : a = b then isTrue (congrArg Except.error h)
    else isFalse fun he => h (Except.error.inj he)
  | .ok _, .error _ => isFalse fun he => Except.noConfusion he
  | .error _, .ok _ => isFalse fun he => Except.noConfusion he

/-- Floor of a rational, computed directly on the numerator and denominator
so that the kernel can evaluate it. -/
def ratFloor (q : ℚ) : ℤ :=
  Int.fdiv q.num (q.den : ℤ)

/-- Round a rational to the nearest integer, ties to even. -/
def rndNearestEven (m : ℚ) : ℤ :=
  let f := ratFloor m
  let r := m - (f : ℚ)
  if r < 1/2 then f
  else if 1/2 < r then f + 1
  else if f % 2 = 0 then f else f + 1

/-- Scale a positive rational into the binade [2^52, 2^53), returning the
scaled value together with the exponent taken out. Fuel-bounded structural
recursion so that the kernel can evaluate it; the fuel used below covers the
whole double-precision exponent range. -/
def normalizeBinade : ℕ → ℚ → ℤ → ℚ × ℤ
  | 0, x, e => (x, e)
  | fuel + 1, x, e =>
    if x < 2 ^ 52 then normalizeBinade fuel (2 * x) (e - 1)
    else if 2 ^ 53 ≤ x then normalizeBinade fuel (x / 2) (e + 1)
    else (x, e)

/-- 2 ^ e over ℚ for an integer exponent, computably. -/
def pow2 (e : ℤ) : ℚ :=
  match e with
  | .ofNat n => (2 : ℚ) ^ n
  | .negSucc n => 1 / (2 : ℚ) ^ (n + 1)

/-- The exact rational value of the IEEE-754 binary64 double nearest to x
(round to nearest, ties to even). Overflow and subnormal territory are far
outside the range of every value this development evaluates, so the model
needs neither. -/
def fl (x : ℚ) : ℚ :=
  if x = 0 then 0
  else
    let p := normalizeBinade 5000 (if x < 0 then -x else x) 0
    let m : ℚ := (rndNearestEven p.1 : ℚ) * pow2 p.2
    if x < 0 then -m else m

/-- Go float64 addition: the exact sum, rounded to the nearest double. -/
def add64 (a b : ℚ) : ℚ := fl (a + b)

/-- Go float64 subtraction: the exact difference, rounded to the nearest
double. -/
def sub64 (a b : ℚ) : ℚ := fl (a - b)

/-- Go float64 multiplication: the exact product, rounded to the nearest
double. big.Float multiplication at the default 53-bit precision (the form
ethereum.go uses) rounds identically. -/
def mul64 (a b : ℚ) : ℚ := fl (a * b)

/-- Go conversion int64(x) of a float64, and big.Float.Int: the fractional
part is discarded, truncating toward zero. -/
def goInt64 (x : ℚ) : ℤ :=
  if x < 0 then -ratFloor (-x) else ratFloor x

/-- The satoshi conversion of BitcoinClient.SendTransaction
(blockchain.go, amountSatoshi := int64(amount * 100000000)). -/
def btcToSatoshi (amount : ℚ) : ℤ :=
  goInt64 (mul64 amount 100000000)

/-- The wei conversion of EthereumClient.SendTransaction (ethereum.go,
value := big.Float(amount) * big.Float(params.Ether); valueInt := value.Int).
params.Ether is 1e18, exactly representable as a double. -/
def etherToWei (amount : ℚ) : ℤ :=
  goInt64 (mul64 amount 1000000000000000000)

/-- The float64 value of the literal 0.0001, the fee BitcoinClient hard-codes
in BTC. -/
def feeBtc : ℚ := fl (1 / 10000)

/-- The hard-coded Bitcoin fee expressed in satoshi: 0.0001 BTC. -/
def btcFeeSat : ℤ := 10000

/-- One unspent output owned by some address, as reported by the node
(btcjson.ListUnspentResult). sat is the on-ledger subunit value; the node
serializes it as a decimal BTC amount, which the Go client reads back as the
nearest float64 (see Utxo.amount). -/
structure Utxo where
  txID : String
  vout : ℕ
  address : String
  sat : ℕ
deriving DecidableEq

/-- The float64 BTC amount the Go code sees for an unspent output. -/
def Utxo.amount (u : Utxo) : ℚ :=
  fl ((u.sat : ℚ) / 100000000)

/-- The distinct return sites of BitcoinClient.SendTransaction. -/
inductive BtcSendError
  | invalidAddress
  | invalidPrivateKey
  | listUnspentFailed
  | insufficientBalance
  | signFailed
  | broadcastFailed
deriving DecidableEq

/-- The transaction BitcoinClient.SendTransaction assembles: the consumed
unspent outputs, and the emitted outputs as (satoshi value, script) pairs,
a script being rendered by the address it pays to (txscript.PayToAddrScript
is a deterministic function of the address). -/
structure BtcBuiltTx where
  inputs : List Utxo
  outputs : List (ℤ × String)
deriving DecidableEq

/-- Everything BitcoinClient.SendTransaction obtains from outside the cited
code: btcutil.DecodeAddress and btcutil.DecodeWIF (external library parsers,
abstracted by their success), the node's ListUnspentMinMaxAddresses response
(none models an RPC error), the outcome of txscript.SignatureScript and of
SendRawTransaction, and the node-assigned transaction id. -/
structure BitcoinEnv where
  decodeAddress : String → Option Unit
  wifValid : String → Bool
  utxos : Option (List Utxo)
  signOk : Bool
  broadcastOk : Bool
  txHash : String

/-- BitcoinClient.ValidateAddress (blockchain.go): an address is valid
exactly when btcutil.DecodeAddress succeeds on it; a pure function of the
string, no network call. -/
def bitcoinValidateAddress (env : BitcoinEnv) (s : String) : Bool :=
  (env.decodeAddress s).isSome

/-- The input-selection loop of BitcoinClient.SendTransaction: walk the
node's unspent list in the order given, keep outputs owned by the sender,
accumulate their float64 amounts, and stop as soon as the accumulated total
reaches amount + 0.0001. Returns the final accumulator and the consumed
outputs. -/
def btcSelectInputs (fromAddress : String) (target : ℚ) :
    List Utxo → ℚ → ℚ × List Utxo
  | [], total => (total, [])
  | u :: rest, total =>
    if u.address = fromAddress then
      let total' := add64 total u.amount
      if target ≤ total' then (total', [u])
      else
        let r := btcSelectInputs fromAddress target rest total'
        (r.1, u :: r.2)
    else btcSelectInputs fromAddress target rest total

/-- BitcoinClient.SendTransaction (blockchain.go lines 335-430): validate
both addresses, decode the WIF key, fetch unspent outputs, pay amountSatoshi
to the destination, greedily consume the sender's outputs until they cover
amount + 0.0001, fail with ErrInsufficientBalance otherwise, add a change
output back to the sender when change = totalInput - amount - 0.0001 is
positive, then sign and broadcast. All float64 steps are modelled exactly. -/
def btcSendTransaction (env : BitcoinEnv) (fromAddress toAddress : String)
    (amount : ℚ) (privateKeyWIF : String) :
    Except BtcSendError (String × BtcBuiltTx) :=
  if !(bitcoinValidateAddress env fromAddress)
      || !(bitcoinValidateAddress env toAddress) then
    .error .invalidAddress
  else if !(env.wifValid privateKeyWIF) then
    .error .invalidPrivateKey
  else
    match env.utxos with
    | none => .error .listUnspentFailed
    | some unspent =>
      let amountSatoshi : ℤ := btcToSatoshi amount
      let target : ℚ := add64 amount feeBtc
      let sel := btcSelectInputs fromAddress target unspent 0
      if sel.1 < target then .error .insufficientBalance
      else
        let change : ℚ := sub64 (sub64 sel.1 amount) feeBtc
        let outs : List (ℤ × String) :=
          if 0 < change then
            [(amountSatoshi, toAddress),
             (goInt64 (mul64 change 100000000), fromAddress)]
          else [(amountSatoshi, toAddress)]
        if !env.signOk then .error .signFailed
        else if !env.broadcastOk then .error .broadcastFailed
        else .ok (env.txHash, ⟨sel.2, outs⟩)

/-- Whether a SendTransaction outcome reached the broadcast step: the Go code
calls SendRawTransaction exactly when no earlier return fired, so the result
is either success or the broadcast-failure wrap. -/
def btcBroadcastAttempted (r : Except BtcSendError (String × BtcBuiltTx)) : Bool :=
  match r with
  | .ok _ => true
  | .error .broadcastFailed => true
  | .error _ => false

/-- Sum of the on-ledger subunit values of the consumed inputs. -/
def btcInputSat (tx : BtcBuiltTx) : ℤ :=
  (tx.inputs.map fun u => (u.sat : ℤ)).sum

/-- Sum of the satoshi values of all emitted outputs. -/
def btcOutputSat (tx : BtcBuiltTx) : ℤ :=
  (tx.outputs.map Prod.fst).sum

/-- The node's answer to GetRawTransactionVerbose for a transaction id:
found carries the int64 confirmations field reported by the node. -/
inductive BtcTxLookup
  | found (confirmations : ℤ)
  | failed
deriving DecidableEq

/-- Errors of BitcoinClient.GetConfirmations. -/
inductive BtcConfError
  | invalidTxID
  | lookupFailed
deriving DecidableEq

/-- BitcoinClient.GetConfirmations (blockchain.go lines 452-466): parse the
transaction id, query the node, and return uint64(tx.Confirmations); the Go
conversion of a negative int64 wraps modulo 2^64. -/
def btcGetConfirmations (txIDValid : Bool) (lookup : BtcTxLookup) :
    Except BtcConfError ℕ :=
  if !txIDValid then .error .invalidTxID
  else
    match lookup with
    | .failed => .error .lookupFailed
    | .found conf => .ok (conf % (2 ^ 64 : ℤ)).toNat

/-- go-ethereum common.IsHexAddress hex-prefix test: at least two characters
and a leading "0x" or "0X". -/
def leads0x (s : String) : Bool :=
  match s.data with
  | '0' :: c :: _ => c == 'x' || c == 'X'
  | _ => false

/-- go-ethereum isHexCharacter. -/
def isHexCharacter (c : Char) : Bool :=
  ('0' ≤ c && c ≤ '9') || ('a' ≤ c && c ≤ 'f') || ('A' ≤ c && c ≤ 'F')

/-- The characters of an address string once an optional hex marker is
stripped, as common.IsHexAddress does before checking the body. -/
def addrBody (s : String) : List Char :=
  if leads0x s then s.data.drop 2 else s.data

/-- go-ethereum common.IsHexAddress: strip an optional 0x/0X marker, then
require exactly 2*20 characters forming an even-length hex string. -/
def isHexAddress (s : String) : Bool :=
  (addrBody s).length == 40
    && ((addrBody s).length % 2 == 0 && (addrBody s).all isHexCharacter)

/-- EthereumClient.ValidateAddress (ethereum.go lines 109-111): delegates to
common.IsHexAddress; a pure function of the string, no network call. -/
def ethValidateAddress (s : String) : Bool :=
  isHexAddress s

/-- The ledger's address format invariant, stated independently of the
implementation: after an optional 0x/0X marker, exactly 40 characters, each a
hexadecimal digit. (The ledger's base format carries no checksum; EIP-55
capitalization is an optional display convention the Go code does not check.) -/
def EthAddressFormat (s : String) : Prop :=
  (addrBody s).length = 40 ∧
    ∀ c ∈ addrBody s,
      ('0' ≤ c ∧ c ≤ '9') ∨ ('a' ≤ c ∧ c ≤ 'f') ∨ ('A' ≤ c ∧ c ≤ 'F')

instance (s : String) : Decidable (EthAddressFormat s) := by
  unfold EthAddressFormat; infer_instance

/-- Numeric value of a hex digit (0 for other characters, as the Go hex
decoder never reaches them on validated input). -/
def hexVal (c : Char) : ℕ :=
  if '0' ≤ c ∧ c ≤ '9' then c.toNat - '0'.toNat
  else if 'a' ≤ c ∧ c ≤ 'f' then c.toNat - 'a'.toNat + 10
  else if 'A' ≤ c ∧ c ≤ 'F' then c.toNat - 'A'.toNat + 10
  else 0

/-- Big-endian value of a list of hex digits. -/
def hexToNat (l : List Char) : ℕ :=
  l.foldl (fun a c => 16 * a + hexVal c) 0

/-- go-ethereum common.HexToAddress on a valid hex string: strip the optional
marker, decode the hex digits, keep the last 20 bytes (Address.SetBytes). The
ledger address is the resulting 160-bit value. -/
def hexToAddress (s : String) : ℕ :=
  hexToNat (addrBody s) % 2 ^ 160

/-- Lowercase hex character of a value below 16. -/
def toHexChar (n : ℕ) : Char :=
  if n < 10 then Char.ofNat ('0'.toNat + n) else Char.ofNat ('a'.toNat + n - 10)

/-- The k low hex digits of v, least significant first. -/
def natHexDigitsRev : ℕ → ℕ → List Char
  | 0, _ => []
  | k + 1, v => toHexChar (v % 16) :: natHexDigitsRev k (v / 16)

/-- A rendering of an address as "0x" followed by its 40 hex digits in
lowercase. go-ethereum common.Address.Hex additionally capitalizes some
letters per the EIP-55 keccak checksum; on an address whose 40 digits are all
decimal the two renderings coincide exactly, and the model environments below
only apply a rendering to such addresses. -/
def addressHexLower (a : ℕ) : String :=
  "0x" ++ String.mk (natHexDigitsRev 40 a).reverse

/-- EthereumClient.SendTransaction normalizes the private-key string with a
"0x" marker before hexutil.Decode. -/
def ethNormalizeKey (s : String) : String :=
  match s.data with
  | '0' :: 'x' :: _ => s
  | _ => "0x" ++ s

/-- The distinct return sites of EthereumClient.SendTransaction. -/
inductive EthSendError
  | invalidAddress
  | invalidPrivateKey
  | keyMismatch
  | nonceFailed
  | gasPriceFailed
  | signFailed
  | broadcastFailed
deriving DecidableEq

/-- The transfer transaction EthereumClient.SendTransaction constructs
(types.NewTransaction): nonce, destination address, value in wei, the fixed
21000 gas limit, and the suggested gas price. -/
structure EthTx where
  nonce : ℕ
  toAddr : ℕ
  valueWei : ℤ
  gasLimit : ℕ
  gasPriceWei : ℕ
deriving DecidableEq

/-- Everything EthereumClient.SendTransaction obtains from outside the cited
code: the composition of hexutil.Decode, crypto.ToECDSA and
crypto.PubkeyToAddress (secp256k1 key derivation, abstracted as the address
the key derives to, none for an unparseable key), the common.Address.Hex
rendering, the node's pending nonce and suggested gas price (none models an
RPC error), the account balance the node would report (the cited code never
asks for it), the outcomes of signing and broadcasting, and the transaction
hash. -/
structure EthereumEnv where
  keyToAddress : String → Option ℕ
  addrHex : ℕ → String
  pendingNonce : Option ℕ
  gasPrice : Option ℕ
  balance : ℕ
  signOk : Bool
  broadcastOk : Bool
  txHash : String

/-- EthereumClient.SendTransaction (ethereum.go lines 247-311): validate both
addresses with IsHexAddress, parse the key, reject when the rendering of the
key-derived address differs from fromAddress as a string, fetch nonce and gas
price, convert the float64 amount to wei, build the 21000-gas transfer, sign
and broadcast. No balance is ever read. -/
def ethSendTransaction (env : EthereumEnv) (fromAddress toAddress : String)
    (amount : ℚ) (privateKeyHex : String) :
    Except EthSendError (String × EthTx) :=
  if !(ethValidateAddress fromAddress) || !(ethValidateAddress toAddress) then
    .error .invalidAddress
  else
    match env.keyToAddress (ethNormalizeKey privateKeyHex) with
    | none => .error .invalidPrivateKey
    | some address =>
      if env.addrHex address = fromAddress then
        match env.pendingNonce with
        | none => .error .nonceFailed
        | some nonce =>
          match env.gasPrice with
          | none => .error .gasPriceFailed
          | some gasPrice =>
            let tx : EthTx :=
              ⟨nonce, hexToAddress toAddress, etherToWei amount, 21000, gasPrice⟩
            if !env.signOk then .error .signFailed
            else if !env.broadcastOk then .error .broadcastFailed
            else .ok (env.txHash, tx)
      else .error .keyMismatch

/-- Whether an Ethereum SendTransaction outcome reached the broadcast step. -/
def ethBroadcastAttempted (r : Except EthSendError (String × EthTx)) : Bool :=
  match r with
  | .ok _ => true
  | .error .broadcastFailed => true
  | .error _ => false

/-- The node's answer to TransactionReceipt: found carries the receipt's
block number (BlockNumber.Uint64 of the node's value); notFound is the
ethereum.NotFound error, covering unknown as well as broadcast-but-unmined
transaction ids; failed is any other RPC error. -/
inductive ReceiptLookup
  | found (blockNumber : ℕ)
  | notFound
  | failed
deriving DecidableEq

/-- Errors of EthereumClient.GetConfirmations. -/
inductive EthConfError
  | receiptFailed
  | blockNumberFailed
deriving DecidableEq

/-- Go uint64 subtraction a - b: wraps modulo 2^64. -/
def u64sub (a b : ℕ) : ℕ :=
  (a % 2 ^ 64 + (2 ^ 64 - b % 2 ^ 64)) % 2 ^ 64

/-- EthereumClient.GetConfirmations (ethereum.go lines 350-374): a NotFound
receipt yields (0, nil); any other receipt error is surfaced; otherwise the
current block number is fetched (none models an RPC error) and the uint64
difference currentBlock - receipt.BlockNumber.Uint64() is returned. -/
def ethGetConfirmations (receipt : ReceiptLookup) (currentBlock : Option ℕ) :
    Except EthConfError ℕ :=
  match receipt with
  | .notFound => .ok 0
  | .failed => .error .receiptFailed
  | .found bn =>
    match currentBlock with
    | none => .error .blockNumberFailed
    | some cur => .ok (u64sub cur bn)

/-- BlockchainClientFactory.RegisterClient (blockchain.go lines 98-100): map
insertion, overwriting any earlier client for the same currency code. The Go
map is modelled as an association list with unique keys. -/
def registerClient {C : Type} (f : List (String × C)) (currency : String)
    (client : C) : List (String × C) :=
  (currency, client) :: f.filter fun p => !(p.1 == currency)

/-- BlockchainClientFactory.GetClient (blockchain.go lines 103-109). -/
def getClient {C : Type} (f : List (String × C)) (currency : String) :
    Except String C :=
  match f.find? (fun p => p.1 == currency) with
  | some p => .ok p.2
  | none => .error ("blockchain client not found for currency: " ++ currency)

/-- BlockchainClientFactory.GetSupportedCurrencies (blockchain.go lines
112-118): the registered currency codes. -/
def getSupportedCurrencies {C : Type} (f : List (String × C)) : List String :=
  f.map Prod.fst

/-- A sender address and a recipient address used by the concrete scenarios. -/
def senderAddr : String := "addr-sender"

/-- Recipient address of the concrete Bitcoin scenarios. -/
def recipientAddr : String := "addr-recipient"

/-- Bitcoin environment holding a single unspent output of 20000 satoshi
(0.0002 BTC) owned by the sender; the library parsers succeed and the node
accepts the broadcast. -/
def btcEnvA : BitcoinEnv where
  decodeAddress := fun _ => some ()
  wifValid := fun _ => true
  utxos := some [⟨"prev-a", 0, senderAddr, 20000⟩]
  signOk := true
  broadcastOk := true
  txHash := "btc-txid-a"

/-- Bitcoin environment whose node lists the sender's unspent outputs of
10000, 30000 and 50000 satoshi in ascending order of amount. -/
def btcEnvB : BitcoinEnv where
  decodeAddress := fun _ => some ()
  wifValid := fun _ => true
  utxos := some [⟨"prev-b1", 0, senderAddr, 10000⟩,
                 ⟨"prev-b2", 0, senderAddr, 30000⟩,
                 ⟨"prev-b3", 1, senderAddr, 50000⟩]
  signOk := true
  broadcastOk := true
  txHash := "btc-txid-b"

/-- Bitcoin environment whose address decoder rejects every string. -/
def btcEnvNone : BitcoinEnv where
  decodeAddress := fun _ => none
  wifValid := fun _ => true
  utxos := some []
  signOk := true
  broadcastOk := true
  txHash := "btc-txid-n"

/-- The canonical 0x-prefixed rendering of the all-ones test address. Its 40
hex digits are all decimal, so the EIP-55 checksummed rendering is this very
string. -/
def addrStr1 : String := "0x1111111111111111111111111111111111111111"

/-- The same ledger address written without the 0x marker; IsHexAddress
accepts this form as well. -/
def addrStr1Bare : String := "1111111111111111111111111111111111111111"

/-- A distinct destination address. -/
def addrStr2 : String := "0x2222222222222222222222222222222222222222"

/-- Ethereum environment for the concrete scenarios: the supplied key derives
to the all-ones address, the rendering is the canonical one (which on this
all-digit address equals common.Address.Hex exactly), the node reports nonce
5, a 20 gwei gas price, an account balance of zero, and accepts the
broadcast. -/
def ethEnvA : EthereumEnv where
  keyToAddress := fun _ => some (hexToAddress addrStr1)
  addrHex := addressHexLower
  pendingNonce := some 5
  gasPrice := some 20000000000
  balance := 0
  signOk := true
  broadcastOk := true
  txHash := "eth-txid-a"

/-- Helper: a hex-character test written as the Bool the Go code computes is
equivalent to the propositional digit ranges of the format invariant. -/
theorem isHexCharacter_iff (c : Char) :
    isHexCharacter c = true ↔
      ('0' ≤ c ∧ c ≤ '9') ∨ ('a' ≤ c ∧ c ≤ 'f') ∨ ('A' ≤ c ∧ c ≤ 'F') := by
  simp [isHexCharacter, Bool.or_eq_true, Bool.and_eq_true, decide_eq_true_eq,
    or_assoc]

/-- C1: the claimed exact subunit conservation fails on the code. A
succeeding BitcoinClient.SendTransaction of 0.00000003 BTC against a single
20000-satoshi unspent output consumes 20000 satoshi but emits only 2 satoshi
to the recipient and 9997 satoshi of change beside the intended
10000-satoshi fee: 19999 of the 20000 consumed satoshi are accounted for and
one is silently lost to the float64 truncations. -/
theorem btc_send_unaccounted_subunit :
    ∃ r, btcSendTransaction btcEnvA senderAddr recipientAddr
        (fl (3 / 100000000)) "wif-a" = .ok r
      ∧ btcInputSat r.2 = 20000
      ∧ btcOutputSat r.2 + btcFeeSat = 19999
      ∧ btcInputSat r.2 ≠ btcOutputSat r.2 + btcFeeSat := by
  refine ⟨("btc-txid-a",
      ⟨[⟨"prev-a", 0, senderAddr, 20000⟩],
       [(2, recipientAddr), (9997, senderAddr)]⟩),
    by decide, by decide, by decide, by decide⟩

/-- C2: the decimal-to-subunit conversions drift. The representable decimal
amount 0.00000003 (3 satoshi) converts to 2 satoshi, so the round trip
returns 0.00000002, not the original amount; the wei conversion of the same
decimal yields 29999999999 instead of 30000000000 wei. The single instance
the claim cites does hold: 0.00000001 converts to exactly 1 satoshi. -/
theorem unit_conversion_round_trip_drifts :
    btcToSatoshi (fl (3 / 100000000)) = 2
  ∧ (2 : ℚ) / 100000000 ≠ 3 / 100000000
  ∧ etherToWei (fl (3 / 100000000)) = 29999999999
  ∧ (29999999999 : ℤ) ≠ 3 * 10 ^ 10
  ∧ btcToSatoshi (fl (1 / 100000000)) = 1 := by
  exact ⟨by decide, by decide, by decide, by decide, by decide⟩

/-- C3: input selection does not order the unspent outputs by amount. With
the node listing the sender's outputs of 10000, 30000 and 50000 satoshi in
ascending order, a send of 0.0006 BTC (six fee-units, the scenario of the
claim scaled to the code's hard-coded 0.0001 BTC fee) consumes all three
outputs in the node's order instead of selecting only the two largest. -/
theorem btc_selection_follows_node_order :
    ∃ r, btcSendTransaction btcEnvB senderAddr recipientAddr
        (fl (6 / 10000)) "wif-b" = .ok r
      ∧ r.2.inputs.map Utxo.sat = [10000, 30000, 50000]
      ∧ (r.2.inputs.map Utxo.sat).length ≠ 2 := by
  refine ⟨("btc-txid-b",
      ⟨[⟨"prev-b1", 0, senderAddr, 10000⟩,
        ⟨"prev-b2", 0, senderAddr, 30000⟩,
        ⟨"prev-b3", 1, senderAddr, 50000⟩],
       [(59999, recipientAddr), (20000, senderAddr)]⟩),
    by decide, by decide, by decide⟩

/-- C4: EthereumClient.SendTransaction never checks the sender's balance.
With the node reporting a balance of zero — far below the claimed total cost
of amount + feeRate * 21000 — the call still succeeds and broadcasts instead
of failing with InsufficientBalance. -/
theorem eth_send_no_balance_check :
    ethEnvA.balance = 0
  ∧ (ethEnvA.balance : ℤ) < etherToWei 1 + 21000 * 20000000000
  ∧ (∃ r, ethSendTransaction ethEnvA addrStr1 addrStr2 1 "ab" = .ok r)
  ∧ ethBroadcastAttempted
      (ethSendTransaction ethEnvA addrStr1 addrStr2 1 "ab") = true := by
  refine ⟨by decide, by decide,
    ⟨("eth-txid-a",
        ⟨5, hexToAddress addrStr2, 1000000000000000000, 21000, 20000000000⟩),
      by decide⟩, by decide⟩

/-- C5: both validateAddress implementations are pure functions of the
address string (their model types carry no node access), and each returns
false for every address failing its ledger's format check: the Ethereum
validator accepts a string exactly when it satisfies the ledger's
40-hex-digit format invariant, and the Bitcoin validator returns false
whenever the address decoder rejects the string. -/
theorem validate_address_pure_format :
    (∀ s : String, ethValidateAddress s = true ↔ EthAddressFormat s)
  ∧ ∀ (env : BitcoinEnv) (s : String),
      env.decodeAddress s = none → bitcoinValidateAddress env s = false := by
  refine ⟨fun s => ?_, fun env s h => ?_⟩
  · unfold ethValidateAddress isHexAddress EthAddressFormat
    simp only [Bool.and_eq_true, beq_iff_eq, List.all_eq_true]
    constructor
    · rintro ⟨h40, _, hall⟩
      exact ⟨h40, fun c hc => (isHexCharacter_iff c).mp (hall c hc)⟩
    · rintro ⟨h40, hall⟩
      refine ⟨h40, ⟨by rw [h40], fun c hc => (isHexCharacter_iff c).mpr (hall c hc)⟩⟩
  · simp [bitcoinValidateAddress, h]

/-- Witness for C5 at concrete inputs: the well-formed all-ones address
satisfies the format invariant, and an address the decoder rejects is
invalid. -/
theorem validate_address_pure_format_witness :
    EthAddressFormat addrStr1
  ∧ bitcoinValidateAddress btcEnvNone "not-an-address" = false :=
  ⟨(validate_address_pure_format.1 addrStr1).mp (by decide),
   validate_address_pure_format.2 btcEnvNone "not-an-address" rfl⟩

/-- C6: on either adapter, when the source or destination address fails the
adapter's validation the call returns ErrInvalidAddress at once: the result
carries no built transaction and the broadcast step is never reached. -/
theorem send_invalid_address_fails_fast :
    (∀ (env : BitcoinEnv) (f t : String) (amount : ℚ) (wif : String),
        bitcoinValidateAddress env f = false ∨ bitcoinValidateAddress env t = false →
        btcSendTransaction env f t amount wif = .error .invalidAddress
        ∧ btcBroadcastAttempted (btcSendTransaction env f t amount wif) = false)
  ∧ ∀ (env : EthereumEnv) (f t : String) (amount : ℚ) (key : String),
        ethValidateAddress f = false ∨ ethValidateAddress t = false →
        ethSendTransaction env f t amount key = .error .invalidAddress
        ∧ ethBroadcastAttempted (ethSendTransaction env f t amount key) = false := by
  constructor
  · intro env f t amount wif h
    have hcond :
        (!(bitcoinValidateAddress env f) || !(bitcoinValidateAddress env t)) = true := by
      rcases h with h | h <;> simp [h]
    refine ⟨?_, ?_⟩ <;> simp [btcSendTransaction, hcond, btcBroadcastAttempted]
  · intro env f t amount key h
    have hcond :
        (!(ethValidateAddress f) || !(ethValidateAddress t)) = true := by
      rcases h with h | h <;> simp [h]
    refine ⟨?_, ?_⟩ <;> simp [ethSendTransaction, hcond, ethBroadcastAttempted]

/-- Witness for C6 at concrete inputs: a rejected Bitcoin address and a
malformed Ethereum address each fail fast with the invalid-address error. -/
theorem send_invalid_address_fails_fast_witness :
    btcSendTransaction btcEnvNone senderAddr recipientAddr 1 "w"
      = .error .invalidAddress
  ∧ ethSendTransaction ethEnvA "xyz" addrStr2 1 "k" = .error .invalidAddress :=
  ⟨(send_invalid_address_fails_fast.1 btcEnvNone senderAddr recipientAddr 1 "w"
      (Or.inl (by decide))).1,
   (send_invalid_address_fails_fast.2 ethEnvA "xyz" addrStr2 1 "k"
      (Or.inl (by decide))).1⟩

/-- C7 counterexample: two strings denoting the same ledger address are not
interchangeable for the key/address check. The supplied key derives exactly
to the all-ones address, and fromAddress is that very address written
without the 0x marker (a form ValidateAddress accepts); the claim says the
check passes, but the code compares address.Hex() with fromAddress as
strings and fails with the mismatch error, broadcasting nothing. -/
theorem eth_key_check_rejects_same_address :
    hexToAddress addrStr1Bare = hexToAddress addrStr1
  ∧ ethValidateAddress addrStr1Bare = true
  ∧ ethEnvA.keyToAddress (ethNormalizeKey "ab") = some (hexToAddress addrStr1Bare)
  ∧ ethSendTransaction ethEnvA addrStr1Bare addrStr2 1 "ab" = .error .keyMismatch
  ∧ ethBroadcastAttempted
      (ethSendTransaction ethEnvA addrStr1Bare addrStr2 1 "ab") = false := by
  exact ⟨by decide, by decide, by decide, by decide, by decide⟩

/-- C7 amended: the key/address check is string equality against the
canonical rendering address.Hex() of the key-derived address. When
fromAddress is any other string — even another rendering of the same ledger
address — the call fails with the mismatch error and nothing is broadcast;
when fromAddress is exactly that rendering, the call never fails with the
mismatch error. -/
theorem eth_key_check_is_string_equality
    (env : EthereumEnv) (f t : String) (amount : ℚ) (key : String) (a : ℕ)
    (hf : ethValidateAddress f = true) (ht : ethValidateAddress t = true)
    (hk : env.keyToAddress (ethNormalizeKey key) = some a) :
    (env.addrHex a ≠ f →
        ethSendTransaction env f t amount key = .error .keyMismatch
        ∧ ethBroadcastAttempted (ethSendTransaction env f t amount key) = false)
  ∧ (env.addrHex a = f →
        ethSendTransaction env f t amount key ≠ .error .keyMismatch) := by
  have hsend : ethSendTransaction env f t amount key =
      (if env.addrHex a = f then
        match env.pendingNonce with
        | none => .error .nonceFailed
        | some nonce =>
          match env.gasPrice with
          | none => .error .gasPriceFailed
          | some gasPrice =>
            let tx : EthTx :=
              ⟨nonce, hexToAddress t, etherToWei amount, 21000, gasPrice⟩
            if !env.signOk then .error .signFailed
            else if !env.broadcastOk then .error .broadcastFailed
            else .ok (env.txHash, tx)
      else .error .keyMismatch) := by
    simp [ethSendTransaction, hf, ht, hk]
  constructor
  · intro hne
    rw [hsend, if_neg hne]
    exact ⟨rfl, rfl⟩
  · intro heq
    rw [hsend, if_pos heq]
    rcases env.pendingNonce with _ | nonce
    · simp
    · rcases env.gasPrice with _ | gp
      · simp
      · cases hs : env.signOk <;> cases hb : env.broadcastOk <;> simp [hs, hb]

/-- Witness for C7 at concrete inputs: with fromAddress given exactly as the
canonical rendering of the key-derived address, the call does not fail with
the mismatch error. -/
theorem eth_key_check_is_string_equality_witness :
    ethSendTransaction ethEnvA addrStr1 addrStr2 1 "ab" ≠ .error .keyMismatch :=
  (eth_key_check_is_string_equality ethEnvA addrStr1 addrStr2 1 "ab"
      (hexToAddress addrStr1) (by decide) (by decide) (by decide)).2 (by decide)

/-- C8 counterexample: when the node reports a chain height below the
receipt's inclusion height (an out-of-sync or reorged node), the uint64
subtraction wraps: with height 5 and inclusion height 7 the code returns
2^64 - 2, which is not the claimed exact difference 5 - 7. -/
theorem eth_confirmations_wrap_on_reorg :
    ethGetConfirmations (.found 7) (some 5) = .ok 18446744073709551614
  ∧ (18446744073709551614 : ℤ) ≠ 5 - 7 :=
  ⟨by decide, by decide⟩

/-- C8 amended: getConfirmations returns a nonnegative count that equals
currentHeight - inclusionHeight exactly whenever the reported chain height
is at or above the inclusion height (the subtraction is uint64 arithmetic,
so a height below the inclusion height wraps modulo 2^64 instead of being
the claimed exact difference); a transaction without a receipt yields 0, and
the Bitcoin adapter returns the node-reported nonnegative int64 count
unchanged. -/
theorem get_confirmations_exact_below_tip
    (cur bn : ℕ) (conf : ℤ) (hcur : cur < 2 ^ 64) (hbn : bn ≤ cur)
    (hc0 : 0 ≤ conf) (hc1 : conf < 2 ^ 63) :
    ethGetConfirmations (.found bn) (some cur) = .ok (cur - bn)
  ∧ (∀ c, ethGetConfirmations .notFound c = .ok 0)
  ∧ btcGetConfirmations true (.found conf) = .ok conf.toNat := by
  refine ⟨?_, fun c => rfl, ?_⟩
  · simp only [ethGetConfirmations, u64sub]
    congr 1
    omega
  · simp only [btcGetConfirmations, Bool.not_true]
    norm_num
    congr 1
    omega

/-- Witness for C8 at concrete inputs: height 9 with inclusion height 4
gives exactly 5 confirmations. -/
theorem get_confirmations_exact_below_tip_witness :
    ethGetConfirmations (.found 4) (some 9) = .ok 5 :=
  (get_confirmations_exact_below_tip 9 4 3 (by decide) (by decide)
      (by decide) (by decide)).1

/-- C9: registry round trip. Looking a currency up immediately after
registering a client for it returns that client (so a later registration
overwrites an earlier one), and GetClient returns an error exactly for the
currency codes outside GetSupportedCurrencies, which lists exactly the
registered codes. -/
theorem registry_register_get_supported {C : Type}
    (f : List (String × C)) (currency : String) (client : C) (c : String) :
    getClient (registerClient f currency client) currency = .ok client
  ∧ ((∃ e, getClient f c = .error e) ↔ c ∉ getSupportedCurrencies f) := by
  constructor
  · simp [getClient, registerClient, List.find?]
  · induction f with
    | nil => simp [getClient, getSupportedCurrencies]
    | cons p rest ih =>
      rcases p with ⟨s, k⟩
      by_cases hs : s = c
      · subst hs
        simp [getClient, List.find?, getSupportedCurrencies]
      · have hb : (s == c) = false := by simp [hs]
        have hstep : getClient ((s, k) :: rest) c = getClient rest c := by
          simp [getClient, List.find?, hb]
        have hcs : ¬c = s := fun h => hs h.symm
        rw [hstep]
        simpa [getSupportedCurrencies, List.mem_cons, hcs] using ih

/-- Witness for C9 at concrete inputs: registering a client for "BTC" in an
empty registry and looking "BTC" up returns that client. -/
theorem registry_register_get_supported_witness :
    getClient (registerClient ([] : List (String × ℕ)) "BTC" 7) "BTC" = .ok 7 :=
  (registry_register_get_supported [] "BTC" 7 "BTC").1

/-- C10: for every transaction id whose receipt lookup reports NotFound —
unknown ids and broadcast-but-unmined transactions alike — GetConfirmations
returns 0 with no error, so this operation cannot distinguish the two
cases. -/
theorem eth_confirmations_not_found_is_zero (currentBlock : Option ℕ) :
    ethGetConfirmations .notFound currentBlock = .ok 0 := rfl

end PayChain
